import Mathlib

/-!
# Verification of the ToonOut background-removal service (`src/main.py`)

A shallow embedding of the single-file FastAPI service: string helpers from
`os.path` (`basename`, `splitext`), the ZIP model (`namelist`, `testzip`,
name lookup), the image pipeline (`exif_transpose`, `convert("RGB")`, the
`preprocess` transform stack, thresholding, `putalpha`, `cutout_rgba`), the
lazily cached model loader, the API-key dependency, and the `/cutout_zip`
endpoint.

External code (PIL's image decoder and resampler, the BiRefNet forward pass)
is abstracted into explicit oracle parameters; everything written in
`src/main.py` itself is translated directly.
-/

namespace ToonOut

/-! ## String helpers (Python `str` / `os.path` semantics) -/

/-- Python `s.lower()`: lower-case every character. -/
def strLower (s : String) : String := ⟨s.data.map Char.toLower⟩

/-- Python `s.endswith(t)`. -/
def strEndsWith (s t : String) : Bool := t.data.isSuffixOf s.data

/-- Index of the last occurrence of `c` in the list (Python `str.rfind`,
    `none` standing for `-1`). -/
def rlast (c : Char) : List Char → Option Nat
  | [] => none
  | x :: xs =>
    match rlast c xs with
    | some i => some (i + 1)
    | none => if x = c then some 0 else none

/-- Embeds `os.path.basename(p)` on POSIX: everything after the last `'/'`. -/
def basename (p : String) : String :=
  ⟨go p.data []⟩
where
  go : List Char → List Char → List Char
    | [], cur => cur.reverse
    | c :: rest, cur => if c = '/' then go rest [] else go rest (c :: cur)

/-- Embeds `os.path.splitext(p)` on POSIX: split at the last dot that lies after the
    last `'/'` and is preceded (within the final path component) by at least
    one non-dot character; otherwise the extension is empty.  This mirrors
    CPython's `posixpath._splitext` loop, including its treatment of leading
    dots (`splitext(".png") = (".png", "")`). -/
def splitext (p : String) : String × String :=
  let l := p.data
  let s := match rlast '/' l with
    | none => 0
    | some i => i + 1
  match rlast '.' l with
  | none => (p, "")
  | some d =>
    if s ≤ d ∧ (List.range (d - s)).any (fun k => l.getD (s + k) '.' ≠ '.') then
      (⟨l.take d⟩, ⟨l.drop d⟩)
    else
      (p, "")

/-- Python truthiness of an `Optional[str]`: `None` and `""` are falsy. -/
def pyTruthyStr : Option String → Bool
  | none => false
  | some s => s ≠ ""

/-! ## ZIP archive model (`zipfile.ZipFile`) -/

/-- One stored entry of a ZIP archive.  `corrupt` records whether the
    entry's CRC check fails (what `ZipFile.testzip` detects). -/
structure ZipEntry where
  name : String
  data : List Nat
  corrupt : Bool
deriving DecidableEq, Repr

/-- An opened ZIP archive: its entries in central-directory order. -/
structure Zip where
  entries : List ZipEntry
deriving DecidableEq, Repr

/-- Embeds `ZipFile.namelist()`: the entry names, in order, duplicates included. -/
def namelist (z : Zip) : List String := z.entries.map (·.name)

/-- Embeds `ZipFile.testzip()`: the name of the first corrupt entry, or `None`. -/
def testzip (z : Zip) : Option String :=
  (z.entries.find? (·.corrupt)).map (·.name)

/-- Lookup of `ZipFile.getinfo(name)` / `ZipFile.open(name)`: they resolve a name through the
    `NameToInfo` dict, which is built front to back, so a duplicated name maps
    to its **last** occurrence. -/
def getEntryByName (z : Zip) (n : String) : Option ZipEntry :=
  z.entries.reverse.find? (fun e => e.name = n)

/-! ## Image and tensor model -/

/-- A PIL image, as far as this service inspects it: its pixel-grid size, its
    EXIF orientation tag (`1` = upright / absent), its mode string, and its
    alpha channel (present when the mode is `"RGBA"`).  Colour data is carried
    only through the oracles, which is all `main.py` ever does with it. -/
structure Img where
  width : Nat
  height : Nat
  exifTag : Nat
  mode : String
  alpha : List (Fin 256)
deriving DecidableEq, Repr

/-- The EXIF orientation values that `ImageOps.exif_transpose` realises with a
    90°-rotation or transposition, i.e. the ones that swap width and height. -/
def swapsDims (tag : Nat) : Bool :=
  tag = 5 ∨ tag = 6 ∨ tag = 7 ∨ tag = 8

/-- Embeds `ImageOps.exif_transpose(img)`: apply the orientation the EXIF tag asks
    for (swapping the dimensions for tags 5–8) and clear the tag. -/
def exifTranspose (img : Img) : Img :=
  if swapsDims img.exifTag then
    { img with width := img.height, height := img.width, exifTag := 1 }
  else
    { img with exifTag := 1 }

/-- Embeds `img.convert("RGB")`: force three-channel mode, dropping any alpha. -/
def convertRGB (img : Img) : Img :=
  { img with mode := "RGB", alpha := [] }

/-- Channel count of a PIL mode (`len(img.getbands())`), for the modes this
    service can encounter. -/
def bands (mode : String) : Nat :=
  if mode = "RGB" then 3
  else if mode = "RGBA" then 4
  else if mode = "CMYK" then 4
  else if mode = "LA" then 2
  else 1

/-- A torch tensor, tracked by shape; its numeric payload is consumed only by
    the external network, so it stays behind the `forward` oracle. -/
structure Tensor where
  shape : List Nat
deriving DecidableEq, Repr

/-- Embeds `transforms.Resize((h, w))`: resample the pixel grid to exactly `h × w`. -/
def tResize (size : Nat × Nat) (img : Img) : Img :=
  { img with height := size.1, width := size.2 }

/-- Embeds `transforms.ToTensor()`: a `C × H × W` float tensor. -/
def tToTensor (img : Img) : Tensor :=
  ⟨[bands img.mode, img.height, img.width]⟩

/-- Embeds `transforms.Normalize(mean, std)`: pointwise affine rescaling; it leaves
    the shape unchanged. -/
def tNormalize (t : Tensor) : Tensor := t

/-- The constant `IMAGE_SIZE = (1024, 1024)`. -/
def IMAGE_SIZE : Nat × Nat := (1024, 1024)

/-- The `preprocess` transform pipeline:
    `Compose([Resize(IMAGE_SIZE), ToTensor(), Normalize(...)])`. -/
def preprocess (img : Img) : Tensor :=
  tNormalize (tToTensor (tResize IMAGE_SIZE img))

/-- The thresholding point map `lambda p: 255 if p >= threshold * 255 else 0`
    applied to one 8-bit mask sample. -/
def maskPoint (t : ℚ) (p : Fin 256) : Fin 256 :=
  if ((p : ℕ) : ℚ) ≥ t * 255 then 255 else 0

/-- Embeds `img.putalpha(mask)`: install the mask as alpha channel; the image
    becomes `"RGBA"`. -/
def putalpha (img : Img) (maskVals : List (Fin 256)) : Img :=
  { img with mode := "RGBA", alpha := maskVals }

/-- The inference oracle abstracts everything external between the
    preprocessed tensor and the resized 8-bit soft mask: the BiRefNet forward
    pass, `sigmoid`, `ToPILImage`, the `BILINEAR` resize to the given
    original size and the `"L"` conversion.  Its result is the list of mask
    samples, each an 8-bit value. -/
def Forward : Type := Tensor → Nat × Nat → List (Fin 256)

/-- Embeds `cutout_rgba(img, threshold)` from `main.py`: EXIF-correct and convert to
    RGB, remember the size, preprocess, run inference and resize the soft
    mask back (the oracle), optionally threshold it with `mask.point`, and
    `putalpha` it onto a copy of the RGB image. -/
def cutout_rgba (forward : Forward) (img : Img) (threshold : Option ℚ) : Img :=
  let rgb := convertRGB (exifTranspose img)
  let originalSize := (rgb.width, rgb.height)
  let x := preprocess rgb
  let soft := forward x originalSize
  let maskVals :=
    match threshold with
    | some t => soft.map (maskPoint t)
    | none => soft
  putalpha rgb maskVals

/-! ## Model loader -/

/-- Process state of the model loader: the `_model` global (`none` before the
    first call) and how many times weights have been constructed/loaded.
    A model instance is identified by a natural number. -/
structure ModelState where
  cached : Option Nat
  loadCount : Nat
deriving DecidableEq, Repr

/-- Embeds `load_model()`: return the cached instance if `_model is not None`;
    otherwise construct and load a model, store it in `_model`, and return
    it. -/
def load_model (s : ModelState) : Nat × ModelState :=
  match s.cached with
  | some m => (m, s)
  | none =>
    let m := s.loadCount
    (m, ⟨some m, s.loadCount + 1⟩)

/-! ## HTTP surface -/

/-- Embeds `verify_api_key(x_api_key)`: when the configured `API_KEY` is truthy and
    the `x-api-key` header differs from it, raise `HTTPException(401, ...)`;
    otherwise pass.  `apiKey` is `os.environ.get("TOONOUT_API_KEY")`
    (`none` when the variable is unset), `xApiKey` the optional header. -/
def verify_api_key (apiKey xApiKey : Option String) : Except (Nat × String) Unit :=
  if pyTruthyStr apiKey ∧ xApiKey ≠ apiKey then
    .error (401, "Unauthorized - Invalid API key")
  else
    .ok ()

/-- One registered FastAPI route: HTTP method, path, and whether it carries
    the `Depends(verify_api_key)` dependency. -/
structure Route where
  method : String
  path : String
  gated : Bool
deriving DecidableEq, Repr

/-- The routes the module registers on `app`, in order of declaration:
    `@app.get("/")` (no dependencies), `@app.get("/ping")` and
    `@app.post("/cutout_zip")` (both with `Depends(verify_api_key)`). -/
def appRoutes : List Route :=
  [⟨"GET", "/", false⟩,
   ⟨"GET", "/ping", true⟩,
   ⟨"POST", "/cutout_zip", true⟩]

/-! ## The `/cutout_zip` endpoint -/

/-- The set `valid_exts = {".png", ".jpg", ".jpeg", ".webp", ".bmp"}`. -/
def valid_exts : List String := [".png", ".jpg", ".jpeg", ".webp", ".bmp"]

/-- The member filter of `cutout_zip`:
    `not n.endswith("/") and os.path.splitext(n)[1].lower() in valid_exts`. -/
def qualifies (n : String) : Bool :=
  !(strEndsWith n "/") && valid_exts.contains (strLower (splitext n).2)

/-- An uploaded file: its client-supplied filename, and the result of
    `zipfile.ZipFile(io.BytesIO(raw))` on its bytes — `none` when that
    raises `BadZipFile`. -/
structure Upload where
  filename : String
  zipData : Option Zip
deriving DecidableEq, Repr

/-- Content of one entry of the result archive: a PNG serialisation of an
    image (`rgba.save(..., format="PNG")`), or the text of a caught
    exception (`str(e)`). -/
inductive ZContent where
  | png (im : Img)
  | err (msg : String)
deriving DecidableEq, Repr

/-- The image-decoding oracle abstracts `Image.open(io.BytesIO(...)).load()`
    together with any exception the per-entry `try` block catches: it maps
    the entry's bytes to the decoded image, or to the message `str(e)` of
    the exception raised. -/
def Decode : Type := List Nat → Except String Img

/-- The body of the per-member loop of `cutout_zip`: look the name up
    (`zin.getinfo` / `zin.open`), decode, run `cutout_rgba`, and write
    `{base}_cutout.png`; on an exception, write
    `{os.path.basename(name)}.ERROR.txt` containing `str(e)`.  The lookup
    cannot fail for a name drawn from `namelist`, but were it to, the
    `KeyError` would be caught by the same `except` clause. -/
def processName (decode : Decode) (forward : Forward) (threshold : Option ℚ)
    (z : Zip) (name : String) : String × ZContent :=
  match getEntryByName z name with
  | none => (basename name ++ ".ERROR.txt", .err "KeyError")
  | some e =>
    match decode e.data with
    | .error msg => (basename name ++ ".ERROR.txt", .err msg)
    | .ok im =>
      ((splitext (basename name)).1 ++ "_cutout.png",
       .png (cutout_rgba forward im threshold))

/-- The qualifying members of an upload's archive, in `namelist` order. -/
def membersOf (z : Zip) : List String := (namelist z).filter qualifies

/-- Embeds `cutout_zip(file, threshold)`: validate the filename suffix, parse the
    ZIP, collect the qualifying members, run the integrity test, then map
    the per-member loop over the members and return the result archive.
    Errors are the `HTTPException(400, ...)` raises, in source order. -/
def cutout_zip (decode : Decode) (forward : Forward)
    (u : Upload) (threshold : Option ℚ) :
    Except (Nat × String) (List (String × ZContent)) :=
  if ¬ strEndsWith (strLower u.filename) ".zip" then
    .error (400, "Upload must be a .zip file")
  else
    match u.zipData with
    | none => .error (400, "Invalid ZIP file")
    | some z =>
      if membersOf z = [] then
        .error (400, "ZIP contains no supported images")
      else if pyTruthyStr (testzip z) then
        .error (400, "ZIP integrity check failed for: " ++ (testzip z).getD "")
      else
        .ok ((membersOf z).map (processName decode forward threshold z))

/-! ## Rejection conditions of `/cutout_zip`, stated independently -/

/-- The uploaded filename does not end in `".zip"`, case-insensitively. -/
def condBadName (u : Upload) : Prop :=
  strEndsWith (strLower u.filename) ".zip" = false

/-- The uploaded bytes are not a valid ZIP archive. -/
def condBadZip (u : Upload) : Prop := u.zipData = none

/-- The archive parses but contains no member that is a non-directory entry
    with a supported image extension. -/
def condNoImages (u : Upload) : Prop :=
  ∃ z, u.zipData = some z ∧
    ∀ e ∈ z.entries, qualifies e.name = false

/-- The archive parses and the integrity test reports a corrupt member whose
    name is truthy (non-empty). -/
def condCorrupt (u : Upload) : Prop :=
  ∃ z, u.zipData = some z ∧ pyTruthyStr (testzip z) = true

/-! ## Derived views of `cutout_rgba` -/

/-- The orientation-corrected RGB working image of `cutout_rgba`
    (its local `rgb`). -/
def rgbOf (img : Img) : Img := convertRGB (exifTranspose img)

/-- The resized 8-bit soft mask `cutout_rgba` obtains for an input image
    before any thresholding (its local `mask`, as sample list). -/
def softMaskOf (forward : Forward) (img : Img) : List (Fin 256) :=
  forward (preprocess (rgbOf img)) ((rgbOf img).width, (rgbOf img).height)

/-- Iterated calls: `n + 1` successive calls of `load_model` starting from state `s`,
    returning the value and state of the last call. -/
def loadN : Nat → ModelState → Nat × ModelState
  | 0, s => load_model s
  | n + 1, s => loadN n (load_model s).2

/-! ## Concrete fixtures for witnesses and counterexamples -/

/-- A minimal upright RGB image. -/
def img0 : Img := ⟨1, 1, 1, "RGB", []⟩

/-- An image whose EXIF orientation tag (6 = rotate) transposes it. -/
def imgOriented : Img := ⟨2, 3, 6, "RGB", []⟩

/-- An inference oracle producing an empty mask. -/
def forwardNil : Forward := fun _ _ => []

/-- An inference oracle producing the two-sample soft mask `[100, 200]`. -/
def forwardTwo : Forward := fun _ _ => [100, 200]

/-- A decoder that succeeds on every byte string. -/
def decodeOk : Decode := fun _ => .ok img0

/-- A decoder that succeeds on the byte string `[1]` and raises on
    everything else. -/
def decodeMixed : Decode := fun d =>
  if d = [1] then .ok img0 else .error "broken file"

/-- A one-member archive and its upload. -/
def zipOne : Zip := ⟨[⟨"img.png", [7], false⟩]⟩

/-- Upload wrapping `zipOne`. -/
def uploadOne : Upload := ⟨"in.zip", some zipOne⟩

/-- A two-member archive whose second member `decodeMixed` rejects. -/
def zipTwo : Zip := ⟨[⟨"a/x.png", [1], false⟩, ⟨"b/y.png", [2], false⟩]⟩

/-- Upload wrapping `zipTwo`. -/
def uploadTwo : Upload := ⟨"t.zip", some zipTwo⟩

/-- The result archive `cutout_zip` builds from `uploadTwo` with
    `decodeMixed`. -/
def resTwo : List (String × ZContent) :=
  [("x_cutout.png", .png (cutout_rgba forwardNil img0 none)),
   ("y.png.ERROR.txt", .err "broken file")]

/-- Two qualifying members in different directories sharing the basename
    `img.png`. -/
def zipDup : Zip := ⟨[⟨"a/img.png", [1], false⟩, ⟨"b/img.png", [2], false⟩]⟩

/-- Upload wrapping `zipDup`. -/
def uploadDup : Upload := ⟨"d.zip", some zipDup⟩

/-- An archive whose first entry is corrupt but has the empty string as its
    stored name, together with one healthy qualifying member. -/
def zipEmptyName : Zip := ⟨[⟨"", [], true⟩, ⟨"img.png", [3], false⟩]⟩

/-- Upload wrapping `zipEmptyName`. -/
def uploadEmptyName : Upload := ⟨"a.zip", some zipEmptyName⟩

/-- An upload whose bytes fail to parse as a ZIP archive. -/
def uploadBadZip : Upload := ⟨"b.zip", none⟩

/-- An upload whose filename does not end in `".zip"`. -/
def uploadBadName : Upload := ⟨"img.png", none⟩

/-- The contract of the `i`-th result entry for the `i`-th qualifying member
    `nm`: either the member's entry resolved and decoded, and the result
    entry is the cutout named `splitext(basename(nm))[0] + "_cutout.png"`,
    or the result entry is the error marker `basename(nm) + ".ERROR.txt"`
    whose content is the message of the exception raised for that member. -/
def entrySpec (decode : Decode) (forward : Forward) (t : Option ℚ) (z : Zip)
    (res : List (String × ZContent)) (i : ℕ) : Prop :=
  (∃ e im, getEntryByName z ((membersOf z).getD i "") = some e ∧
      decode e.data = .ok im ∧
      res.getD i ("", .err "") =
        ((splitext (basename ((membersOf z).getD i ""))).1 ++ "_cutout.png",
         .png (cutout_rgba forward im t))) ∨
  (∃ msg, res.getD i ("", .err "") =
      (basename ((membersOf z).getD i "") ++ ".ERROR.txt", .err msg) ∧
    (getEntryByName z ((membersOf z).getD i "") = none ∨
      ∃ e, getEntryByName z ((membersOf z).getD i "") = some e ∧
        decode e.data = .error msg))

/-! ## Shared lemmas -/

/-- Lemma: `getD` commutes with `map` below the length, for any defaults. -/
theorem getD_map_of_lt {α β : Type} (f : α → β) (l : List α) (i : ℕ)
    (da : α) (db : β) (h : i < l.length) :
    (l.map f).getD i db = f (l.getD i da) := by
  induction l generalizing i with
  | nil => simp at h
  | cons a tl ih =>
    cases i with
    | zero => simp
    | succ n =>
      simp only [List.map_cons, List.getD_cons_succ]
      exact ih n (by simpa using h)

/-! ## C3: the HTTP surface -/

/-- C3, counterexample: the claim "exactly two endpoints, every endpoint
    gated by the shared-secret check" is false of the registered routes —
    the module registers three routes, and `GET /` carries no
    `verify_api_key` dependency. -/
theorem appRoutes_not_two_all_gated :
    ¬ (appRoutes.length = 2 ∧ ∀ r ∈ appRoutes, r.gated = true) := by
  decide

/-- C3, amended: the HTTP surface consists of exactly three endpoints — the
    root info endpoint, the health check and the batch cutout — and a route
    is gated by the shared-secret header check exactly when it is not the
    root endpoint. -/
theorem appRoutes_three_gating :
    appRoutes.length = 3 ∧
    (∀ r ∈ appRoutes, r.gated = true ↔ r.path ≠ "/") ∧
    (⟨"GET", "/", false⟩ : Route) ∈ appRoutes ∧
    (⟨"GET", "/ping", true⟩ : Route) ∈ appRoutes ∧
    (⟨"POST", "/cutout_zip", true⟩ : Route) ∈ appRoutes := by
  decide

/-! ## C4: the static API-key check -/

/-- C4: with a configured (non-empty) key, a request whose `x-api-key`
    header differs from the key is rejected with 401 and a request whose
    header equals the key passes; with no key configured, every request
    passes regardless of the header. -/
theorem verify_api_key_static (k : String) (hk : k ≠ "") :
    (∀ h : Option String, h ≠ some k →
        verify_api_key (some k) h = .error (401, "Unauthorized - Invalid API key")) ∧
    verify_api_key (some k) (some k) = .ok () ∧
    (∀ h : Option String, verify_api_key none h = .ok ()) := by
  refine ⟨fun h hne => ?_, ?_, fun h => ?_⟩
  · simp [verify_api_key, pyTruthyStr, hk, hne]
  · simp [verify_api_key]
  · simp [verify_api_key, pyTruthyStr]

/-- Witness for C4 at the key `"secret"`. -/
theorem verify_api_key_static_witness :
    ("secret" : String) ≠ "" ∧
    verify_api_key (some "secret") (some "wrong") =
      .error (401, "Unauthorized - Invalid API key") ∧
    verify_api_key (some "secret") none =
      .error (401, "Unauthorized - Invalid API key") ∧
    verify_api_key (some "secret") (some "secret") = .ok () ∧
    verify_api_key none (some "anything") = .ok () := by
  have h := verify_api_key_static "secret" (by decide)
  exact ⟨by decide, h.1 (some "wrong") (by decide), h.1 none (by decide),
    h.2.1, h.2.2 (some "anything")⟩

/-! ## C5: the lazy, cached model loader -/

/-- C5: after the state of one `load_model` call, every further call — the
    `n`-th subsequent one for any `n` — returns the same model instance and
    leaves the state (in particular the construction count) unchanged; and
    the first call caches exactly the instance it returns. -/
theorem load_model_lazy_cached (s : ModelState) (n : Nat) :
    loadN n s = load_model s ∧
    (load_model s).2.cached = some (load_model s).1 ∧
    (load_model ((load_model s).2)).2.loadCount = (load_model s).2.loadCount := by
  have step : ∀ st : ModelState,
      load_model (load_model st).2 = ((load_model st).1, (load_model st).2) := by
    intro st
    cases h : st.cached <;> simp [load_model, h]
  refine ⟨?_, ?_, by rw [step s]⟩
  · induction n generalizing s with
    | zero => rfl
    | succ m ih =>
      show loadN m (load_model s).2 = load_model s
      rw [ih (load_model s).2, step s]
  · cases h : s.cached <;> simp [load_model, h]

/-! ## C7: the preprocessing pipeline's output shape -/

/-- C7: whatever the input image's dimensions, EXIF tag or mode, after the
    RGB conversion step the `preprocess` pipeline yields a tensor of shape
    `3 × 1024 × 1024`. -/
theorem preprocess_shape (img : Img) :
    (preprocess (convertRGB (exifTranspose img))).shape = [3, 1024, 1024] := by
  rfl

/-! ## C6: output size of `cutout_rgba` -/

/-- C6, counterexample: for an input carrying EXIF orientation 6 the cutout
    does not have the input's width and height — `exif_transpose` swaps
    them before the size is recorded. -/
theorem cutout_rgba_size_counterexample :
    (cutout_rgba forwardNil imgOriented none).width ≠ imgOriented.width ∧
    (cutout_rgba forwardNil imgOriented none).width = 3 ∧
    (cutout_rgba forwardNil imgOriented none).height = 2 ∧
    imgOriented.width = 2 ∧ imgOriented.height = 3 := by
  refine ⟨by decide, rfl, rfl, rfl, rfl⟩

/-- C6, amended: the image `cutout_rgba` returns has the width and height of
    the EXIF-orientation-corrected input, `exif_transpose img`; whenever the
    input's orientation tag is not one of the transposing values 5–8, that
    equals the input's own width and height. -/
theorem cutout_rgba_size (forward : Forward) (img : Img) (t : Option ℚ) :
    (cutout_rgba forward img t).width = (exifTranspose img).width ∧
    (cutout_rgba forward img t).height = (exifTranspose img).height ∧
    (swapsDims img.exifTag = false →
      (cutout_rgba forward img t).width = img.width ∧
      (cutout_rgba forward img t).height = img.height) := by
  refine ⟨?_, ?_, fun h => ⟨?_, ?_⟩⟩
  · cases t <;> simp [cutout_rgba, putalpha, convertRGB, exifTranspose]
  · cases t <;> simp [cutout_rgba, putalpha, convertRGB, exifTranspose]
  · cases t <;> simp [cutout_rgba, putalpha, convertRGB, exifTranspose, h]
  · cases t <;> simp [cutout_rgba, putalpha, convertRGB, exifTranspose, h]

/-- Witness for C6 (amended) at an upright 7 × 5 image. -/
theorem cutout_rgba_size_witness :
    swapsDims (Img.mk 7 5 1 "RGB" []).exifTag = false ∧
    (cutout_rgba forwardNil (Img.mk 7 5 1 "RGB" []) none).width = 7 ∧
    (cutout_rgba forwardNil (Img.mk 7 5 1 "RGB" []) none).height = 5 := by
  have h := cutout_rgba_size forwardNil (Img.mk 7 5 1 "RGB" []) none
  exact ⟨by decide, (h.2.2 (by decide)).1, (h.2.2 (by decide)).2⟩

/-! ## C9: thresholding semantics of `cutout_rgba` -/

/-- C9: with a threshold `t` supplied, the returned alpha channel is the
    soft mask mapped through the point function; every alpha value is 0 or
    255; a pixel's alpha is 255 exactly when its soft mask value is at least
    `t * 255`; and since `t` is not validated, `t * 255 > 255` makes every
    alpha 0 while `t ≤ 0` makes every alpha 255. -/
theorem cutout_rgba_threshold_semantics (forward : Forward) (img : Img) (t : ℚ) :
    (cutout_rgba forward img (some t)).alpha =
      (softMaskOf forward img).map (maskPoint t) ∧
    (∀ a ∈ (cutout_rgba forward img (some t)).alpha, a = 0 ∨ a = 255) ∧
    (∀ i, i < (softMaskOf forward img).length →
      ((cutout_rgba forward img (some t)).alpha.getD i 0 = 255 ↔
        ((((softMaskOf forward img).getD i 0 : ℕ)) : ℚ) ≥ t * 255)) ∧
    (t * 255 > 255 → ∀ a ∈ (cutout_rgba forward img (some t)).alpha, a = 0) ∧
    (t ≤ 0 → ∀ a ∈ (cutout_rgba forward img (some t)).alpha, a = 255) := by
  have halpha : (cutout_rgba forward img (some t)).alpha =
      (softMaskOf forward img).map (maskPoint t) := rfl
  have hbound : ∀ p : Fin 256, (((p : ℕ)) : ℚ) ≤ 255 := by
    intro p
    exact_mod_cast Nat.lt_succ_iff.mp p.isLt
  refine ⟨halpha, ?_, ?_, ?_, ?_⟩
  · intro a ha
    rw [halpha] at ha
    obtain ⟨p, _, rfl⟩ := List.mem_map.1 ha
    unfold maskPoint
    split
    · exact Or.inr rfl
    · exact Or.inl rfl
  · intro i hi
    rw [halpha, getD_map_of_lt (maskPoint t) _ i (0 : Fin 256) (0 : Fin 256) hi]
    unfold maskPoint
    split
    · simp_all
    · simp_all
  · intro ht a ha
    rw [halpha] at ha
    obtain ⟨p, _, rfl⟩ := List.mem_map.1 ha
    unfold maskPoint
    rw [if_neg]
    intro hge
    exact absurd (le_trans hge (hbound p)) (not_le.mpr ht)
  · intro ht a ha
    rw [halpha] at ha
    obtain ⟨p, _, rfl⟩ := List.mem_map.1 ha
    unfold maskPoint
    rw [if_pos]
    have h1 : t * 255 ≤ 0 := by nlinarith
    exact le_trans h1 (by positivity)

/-- Witness for C9 with the soft mask `[100, 200]` at thresholds `1/2`, `2`
    and `0`. -/
theorem cutout_rgba_threshold_semantics_witness :
    0 < (softMaskOf forwardTwo img0).length ∧
    ((cutout_rgba forwardTwo img0 (some (1/2))).alpha.getD 0 0 = 255 ↔
      ((((softMaskOf forwardTwo img0).getD 0 0 : ℕ)) : ℚ) ≥ (1/2) * 255) ∧
    ((2 : ℚ) * 255 > 255) ∧
    (∀ a ∈ (cutout_rgba forwardTwo img0 (some 2)).alpha, a = 0) ∧
    ((0 : ℚ) ≤ 0) ∧
    (∀ a ∈ (cutout_rgba forwardTwo img0 (some 0)).alpha, a = 255) := by
  refine ⟨by decide,
    (cutout_rgba_threshold_semantics forwardTwo img0 (1/2)).2.2.1 0 (by decide),
    by norm_num,
    (cutout_rgba_threshold_semantics forwardTwo img0 2).2.2.2.1 (by norm_num),
    le_refl 0,
    (cutout_rgba_threshold_semantics forwardTwo img0 0).2.2.2.2 (le_refl 0)⟩

/-! ## C8: the 400 rejections of `/cutout_zip` -/

/-- The qualifying-member list is empty iff no entry qualifies. -/
theorem membersOf_eq_nil (z : Zip) :
    membersOf z = [] ↔ ∀ e ∈ z.entries, qualifies e.name = false := by
  simp [membersOf, namelist, List.filter_eq_nil_iff]

/-- C8, amended: `cutout_zip` answers 400 exactly when the filename lacks a
    `.zip` suffix, the bytes are no ZIP, no member qualifies, or the
    integrity test reports a corrupt member with a truthy (non-empty) name;
    and the four checks fire in source order with their messages. -/
theorem cutout_zip_400_conditions (decode : Decode) (forward : Forward)
    (u : Upload) (t : Option ℚ) :
    ((∃ msg, cutout_zip decode forward u t = .error (400, msg)) ↔
      (condBadName u ∨ condBadZip u ∨ condNoImages u ∨ condCorrupt u)) ∧
    (condBadName u →
      cutout_zip decode forward u t = .error (400, "Upload must be a .zip file")) ∧
    (¬ condBadName u → condBadZip u →
      cutout_zip decode forward u t = .error (400, "Invalid ZIP file")) ∧
    (¬ condBadName u → ¬ condBadZip u → condNoImages u →
      cutout_zip decode forward u t = .error (400, "ZIP contains no supported images")) ∧
    (¬ condBadName u → ¬ condBadZip u → ¬ condNoImages u → condCorrupt u →
      ∃ z, u.zipData = some z ∧
        cutout_zip decode forward u t =
          .error (400, "ZIP integrity check failed for: " ++ (testzip z).getD "")) := by
  by_cases h1 : strEndsWith (strLower u.filename) ".zip"
  case neg =>
    have hbn : condBadName u := by
      simpa [condBadName] using h1
    have hres : cutout_zip decode forward u t =
        .error (400, "Upload must be a .zip file") := by
      simp [cutout_zip, h1]
    refine ⟨?_, fun _ => hres, fun hn _ => absurd hbn hn,
      fun hn _ _ => absurd hbn hn, fun hn _ _ _ => absurd hbn hn⟩
    exact ⟨fun _ => Or.inl hbn, fun _ => ⟨_, hres⟩⟩
  case pos =>
    have hbn : ¬ condBadName u := by
      simp [condBadName, h1]
    cases hz : u.zipData with
    | none =>
      have hbz : condBadZip u := hz
      have hres : cutout_zip decode forward u t = .error (400, "Invalid ZIP file") := by
        simp [cutout_zip, h1, hz]
      refine ⟨⟨fun _ => Or.inr (Or.inl hbz), fun _ => ⟨_, hres⟩⟩,
        fun hb => absurd hb hbn, fun _ _ => hres, fun _ _ hni => ?_, fun _ _ _ hc => ?_⟩
      · obtain ⟨z, hz', _⟩ := hni
        rw [hz] at hz'
        cases hz'
      · obtain ⟨z, hz', _⟩ := hc
        rw [hz] at hz'
        cases hz'
    | some z =>
      have hbz : ¬ condBadZip u := by
        simp [condBadZip, hz]
      have hniIff : condNoImages u ↔ membersOf z = [] := by
        constructor
        · rintro ⟨z', hz', hall⟩
          rw [hz] at hz'
          cases hz'
          exact (membersOf_eq_nil z).mpr hall
        · intro h
          exact ⟨z, hz, (membersOf_eq_nil z).mp h⟩
      have hcIff : condCorrupt u ↔ pyTruthyStr (testzip z) = true := by
        constructor
        · rintro ⟨z', hz', hc⟩
          rw [hz] at hz'
          cases hz'
          exact hc
        · intro h
          exact ⟨z, hz, h⟩
      by_cases h2 : membersOf z = []
      case pos =>
        have hres : cutout_zip decode forward u t =
            .error (400, "ZIP contains no supported images") := by
          simp [cutout_zip, h1, hz, h2]
        refine ⟨⟨fun _ => Or.inr (Or.inr (Or.inl (hniIff.mpr h2))), fun _ => ⟨_, hres⟩⟩,
          fun hb => absurd hb hbn, fun _ hb => absurd hb hbz,
          fun _ _ _ => hres, fun _ _ hni _ => absurd (hniIff.mpr h2) hni⟩
      case neg =>
        by_cases h3 : pyTruthyStr (testzip z)
        case pos =>
          have hres : cutout_zip decode forward u t =
              .error (400, "ZIP integrity check failed for: " ++ (testzip z).getD "") := by
            simp [cutout_zip, h1, hz, h2, h3]
          refine ⟨⟨fun _ => Or.inr (Or.inr (Or.inr (hcIff.mpr h3))), fun _ => ⟨_, hres⟩⟩,
            fun hb => absurd hb hbn, fun _ hb => absurd hb hbz,
            fun _ _ hni => absurd (hniIff.mp hni) h2, fun _ _ _ _ => ⟨z, rfl, hres⟩⟩
        case neg =>
          have hres : cutout_zip decode forward u t =
              .ok ((membersOf z).map (processName decode forward t z)) := by
            simp [cutout_zip, h1, hz, h2, h3]
          refine ⟨⟨?_, ?_⟩, fun hb => absurd hb hbn, fun _ hb => absurd hb hbz,
            fun _ _ hni => absurd (hniIff.mp hni) h2,
            fun _ _ _ hc => absurd (hcIff.mp hc) h3⟩
          · rintro ⟨msg, hmsg⟩
            rw [hres] at hmsg
            cases hmsg
          · rintro (hb | hb | hb | hb)
            · exact absurd hb hbn
            · exact absurd hb hbz
            · exact absurd (hniIff.mp hb) h2
            · exact absurd (hcIff.mp hb) h3

/-- Witness for C8 (amended): the filename check fires first on
    `uploadBadName`, and the ZIP-parse check fires on `uploadBadZip`. -/
theorem cutout_zip_400_conditions_witness :
    condBadName uploadBadName ∧
    cutout_zip decodeOk forwardNil uploadBadName none =
      .error (400, "Upload must be a .zip file") ∧
    ¬ condBadName uploadBadZip ∧ condBadZip uploadBadZip ∧
    cutout_zip decodeOk forwardNil uploadBadZip none =
      .error (400, "Invalid ZIP file") := by
  have hbad : condBadName uploadBadName := by
    unfold condBadName
    decide
  have hgood : ¬ condBadName uploadBadZip := by
    unfold condBadName
    decide
  refine ⟨hbad,
    (cutout_zip_400_conditions decodeOk forwardNil uploadBadName none).2.1 hbad,
    hgood, rfl,
    (cutout_zip_400_conditions decodeOk forwardNil uploadBadZip none).2.2.1 hgood rfl⟩

/-- C8, counterexample to the claim as stated: `zipEmptyName`'s integrity
    test does report a corrupt member (`testzip` is not `None`), yet the
    request is not rejected — the code tests the returned name for
    truthiness and the corrupt member's stored name is the empty string. -/
theorem cutout_zip_corrupt_truthiness_counterexample :
    (∃ z, uploadEmptyName.zipData = some z ∧ testzip z ≠ none) ∧
    cutout_zip decodeOk forwardNil uploadEmptyName none =
      .ok [("img_cutout.png", .png (cutout_rgba forwardNil img0 none))] := by
  exact ⟨⟨zipEmptyName, rfl, by decide⟩, rfl⟩

/-! ## C1, C2, C10: the result archive -/

/-- A successful `cutout_zip` answer is exactly the per-member loop mapped
    over the qualifying members. -/
theorem cutout_zip_ok_eq (decode : Decode) (forward : Forward) (u : Upload)
    (t : Option ℚ) (z : Zip) (res : List (String × ZContent))
    (hz : u.zipData = some z)
    (hres : cutout_zip decode forward u t = .ok res) :
    res = (membersOf z).map (processName decode forward t z) := by
  simp only [cutout_zip, hz] at hres
  split at hres
  · exact absurd hres (by simp)
  · split at hres
    · exact absurd hres (by simp)
    · split at hres
      · exact absurd hres (by simp)
      · exact (Except.ok.inj hres).symm

/-- C1: whenever `cutout_zip` accepts an upload, every qualifying member
    whose entry decodes without an exception contributes to the result
    archive an entry named `splitext(basename(member))[0] + "_cutout.png"`
    holding the PNG of its cutout, and that cutout is an RGBA image. -/
theorem cutout_zip_success_entry (decode : Decode) (forward : Forward)
    (t : Option ℚ) (u : Upload) (z : Zip) (res : List (String × ZContent))
    (nm : String) (e : ZipEntry) (im : Img)
    (hz : u.zipData = some z)
    (hres : cutout_zip decode forward u t = .ok res)
    (hmem : nm ∈ membersOf z)
    (hent : getEntryByName z nm = some e)
    (hdec : decode e.data = .ok im) :
    ((splitext (basename nm)).1 ++ "_cutout.png",
      ZContent.png (cutout_rgba forward im t)) ∈ res ∧
    (cutout_rgba forward im t).mode = "RGBA" := by
  have hmap := cutout_zip_ok_eq decode forward u t z res hz hres
  subst hmap
  refine ⟨?_, rfl⟩
  have hpn : processName decode forward t z nm =
      ((splitext (basename nm)).1 ++ "_cutout.png",
       ZContent.png (cutout_rgba forward im t)) := by
    simp [processName, hent, hdec]
  rw [← hpn]
  exact List.mem_map_of_mem _ hmem

/-- Witness for C1 on the one-member archive `zipOne`. -/
theorem cutout_zip_success_entry_witness :
    ("img_cutout.png", ZContent.png (cutout_rgba forwardNil img0 none)) ∈
      [("img_cutout.png", ZContent.png (cutout_rgba forwardNil img0 none))] ∧
    (cutout_rgba forwardNil img0 none).mode = "RGBA" := by
  exact cutout_zip_success_entry decodeOk forwardNil none uploadOne zipOne
    [("img_cutout.png", ZContent.png (cutout_rgba forwardNil img0 none))]
    "img.png" ⟨"img.png", [7], false⟩ img0 rfl rfl (by decide) rfl rfl

/-- C2: a successful answer has exactly one result entry per qualifying
    member, in order, and each satisfies `entrySpec`: the processed output
    on success, or the error marker carrying the exception message on
    failure — so one member's exception leaves every other member's entry
    in place. -/
theorem cutout_zip_entry_per_member (decode : Decode) (forward : Forward)
    (t : Option ℚ) (u : Upload) (z : Zip) (res : List (String × ZContent))
    (hz : u.zipData = some z)
    (hres : cutout_zip decode forward u t = .ok res) :
    res.length = (membersOf z).length ∧
    ∀ i, i < (membersOf z).length → entrySpec decode forward t z res i := by
  have hmap := cutout_zip_ok_eq decode forward u t z res hz hres
  subst hmap
  refine ⟨by simp, ?_⟩
  intro i hi
  unfold entrySpec
  rw [getD_map_of_lt (processName decode forward t z) _ i "" ("", .err "") hi]
  generalize (membersOf z).getD i "" = nm
  cases hent : getEntryByName z nm with
  | none =>
    exact Or.inr ⟨"KeyError", by simp [processName, hent], Or.inl rfl⟩
  | some e =>
    cases hdec : decode e.data with
    | error msg =>
      exact Or.inr ⟨msg, by simp [processName, hent, hdec], Or.inr ⟨e, rfl, hdec⟩⟩
    | ok im =>
      exact Or.inl ⟨e, im, rfl, hdec, by simp [processName, hent, hdec]⟩

/-- Witness for C2 on `zipTwo`, whose first member decodes and whose second
    member raises. -/
theorem cutout_zip_entry_per_member_witness :
    resTwo.length = (membersOf zipTwo).length ∧
    entrySpec decodeMixed forwardNil none zipTwo resTwo 0 ∧
    entrySpec decodeMixed forwardNil none zipTwo resTwo 1 := by
  have h := cutout_zip_entry_per_member decodeMixed forwardNil none uploadTwo
    zipTwo resTwo rfl rfl
  exact ⟨h.1, h.2 0 (by decide), h.2 1 (by decide)⟩

/-- C10: two distinct qualifying members from different directories that
    share the basename `img.png` both produce a result entry named
    `img_cutout.png`, so the result archive holds duplicate entry names. -/
theorem cutout_zip_duplicate_output_names :
    "a/img.png" ∈ membersOf zipDup ∧ "b/img.png" ∈ membersOf zipDup ∧
    ("a/img.png" : String) ≠ "b/img.png" ∧
    basename "a/img.png" = basename "b/img.png" ∧
    cutout_zip decodeOk forwardNil uploadDup none =
      .ok [("img_cutout.png", ZContent.png (cutout_rgba forwardNil img0 none)),
           ("img_cutout.png", ZContent.png (cutout_rgba forwardNil img0 none))] := by
  exact ⟨by decide, by decide, by decide, rfl, rfl⟩

end ToonOut
